import Mathlib

/-!
Verification of the `random_walk` repository: a shallow embedding of
`randomwalk.py` (class `RandomWalk`) and `use.py` (`use_randomwalk`).

Modelling choices:
* NumPy integer arrays become `List Int`.
* The process-wide random source (`np.random`) becomes a `World` value holding
  an infinite stream of raw draws (`stream : Nat → Nat`) and a cursor `pos`
  counting how many raw draws have been consumed so far.  Each element sampled
  by `np.random.choice` consumes one raw draw, which is reduced modulo the
  population size to pick an index.
* `np.random.choice(a, size=n)` raises `ValueError` when `a` is empty, or when
  `n` is negative (the empty check comes first in NumPy); this becomes the
  `Except.error` branches of `npChoice`.
* The tqdm progress bar becomes a list of `(current, total)` progress events
  recorded in the `World`, one event appended per produced walk, matching the
  observable "reports advancement as each walk is produced" behaviour.
* The generator function `use_randomwalk` is embedded as a function computing
  the full finite list of yielded `Result` values together with the final
  `World` and an optional error (the exception, if one escaped mid-iteration).
* Python object state is threaded explicitly: `RandomWalk.call` (the embedding
  of `RandomWalk.__call__`) returns the post-call object, so that preservation
  of the stored configuration is a provable statement rather than a modelling
  assumption.
-/

/-- The process-wide random source together with the observable progress
events: `stream` is the infinite sequence of raw draws, `pos` is how many raw
draws have been consumed, and `progressEvents` the `(current, total)` progress
updates emitted so far. -/
structure World where
  stream : Nat → Nat
  pos : Nat
  progressEvents : List (Nat × Nat)

/-- Consuming `n` raw draws from the random source. -/
def advance (w : World) (n : Nat) : World :=
  ⟨w.stream, w.pos + n, w.progressEvents⟩

/-- `np.arange(a, b, 1)` for integer bounds: the integers `a, a+1, …, b-1`
(empty when `b ≤ a`). -/
def arange (a b : Int) : List Int :=
  (List.range (b - a).toNat).map (fun (i : Nat) => a + (i : Int))

/-- The step-value array built in `RandomWalk.__init__`:
`np.concatenate((np.arange(-size, 0, 1), np.arange(1, size+1, 1)))`. -/
def stepValues (size : Int) : List Int :=
  arange (-size) 0 ++ arange 1 (size + 1)

/-- The `RandomWalk` object: its two attributes `steps` and `step_values`. -/
structure RandomWalk where
  steps : Int
  step_values : List Int
  deriving DecidableEq

/-- `RandomWalk.__init__(self, steps, size)`: stores `steps` and precomputes
the valid step values.  Note that the source performs no validation here. -/
def RandomWalk.init (steps size : Int) : RandomWalk :=
  ⟨steps, stepValues size⟩

/-- The list of `n` elements sampled from `a` by one `np.random.choice(a, n)`
call starting at the current cursor of `w` (defined for nonempty `a`; the
`getD` default is never reached then). -/
def choiceDraws (a : List Int) (w : World) (n : Nat) : List Int :=
  (List.range n).map (fun i => a.getD (w.stream (w.pos + i) % a.length) 0)

/-- `np.random.choice(a, size=n)`.  Raises `ValueError` on an empty population
(checked first) or a negative size; otherwise samples `n` elements uniformly
with replacement, consuming `n` raw draws. -/
def npChoice (a : List Int) (n : Int) (w : World) :
    Except (String × World) (List Int × World) :=
  if a.length = 0 then Except.error ("a must be non-empty", w)
  else if n < 0 then Except.error ("negative dimensions are not allowed", w)
  else Except.ok (choiceDraws a w n.toNat, advance w n.toNat)

/-- `np.where(directions == 0, steps, 0)`, elementwise on equal-length lists. -/
def npWhere0 : List Int → List Int → List Int
  | d :: ds, v :: vs => (if d = 0 then v else 0) :: npWhere0 ds vs
  | _, _ => []

/-- `np.where(directions == 1, steps, 0)`, elementwise on equal-length lists. -/
def npWhere1 : List Int → List Int → List Int
  | d :: ds, v :: vs => (if d = 1 then v else 0) :: npWhere1 ds vs
  | _, _ => []

/-- Running sums continuing from the accumulator `acc`. -/
def cumsumFrom (acc : Int) : List Int → List Int
  | [] => []
  | v :: rest => (acc + v) :: cumsumFrom (acc + v) rest

/-- `np.cumsum`: the list of partial sums (same length as the input). -/
def cumsum (l : List Int) : List Int :=
  cumsumFrom 0 l

/-- `np.insert(l, 0, 0)`: prepend a zero. -/
def npInsert0 (l : List Int) : List Int :=
  0 :: l

/-- `RandomWalk.__call__`: draw a direction per step, draw a step size per
step, split the step sizes over the two axes, take cumulative sums, and
prepend the origin.  Returns the `(x_values, y_values)` pair, the post-call
object, and the post-call random-source state; exceptions from
`np.random.choice` propagate. -/
def RandomWalk.call (self : RandomWalk) (w : World) :
    Except (String × World) ((List Int × List Int) × RandomWalk × World) :=
  match npChoice [0, 1] self.steps w with
  | Except.error e => Except.error e
  | Except.ok (directions, w1) =>
    match npChoice self.step_values self.steps w1 with
    | Except.error e => Except.error e
    | Except.ok (steps, w2) =>
      let x_steps := npWhere0 directions steps
      let y_steps := npWhere1 directions steps
      let x_values := cumsum x_steps
      let y_values := cumsum y_steps
      Except.ok ((npInsert0 x_values, npInsert0 y_values), self, w2)

/-- The `Result` namedtuple of `use.py`. -/
structure Result where
  x_coords : List Int
  y_coords : List Int
  deriving DecidableEq

/-- The outcome of running `use_randomwalk` to completion: the walks yielded,
the generator object after the run, the final world, and the exception that
escaped, if any. -/
structure ProduceOut where
  walks : List Result
  gen : RandomWalk
  world : World
  err : Option String

/-- One tqdm progress update `(current, total)`, emitted per produced walk. -/
def tqdmUpdate (w : World) (cur total : Nat) : World :=
  ⟨w.stream, w.pos, w.progressEvents ++ [(cur, total)]⟩

/-- The `for _ in tqdm.tqdm(range(total_walks)) : yield Result(*randomwalk())`
loop, with `remaining` iterations left out of `total`.  An exception raised by
the walk generation stops the loop and is recorded in `err`. -/
def produceFrom (total : Nat) : RandomWalk → Nat → World → ProduceOut
  | rw, 0, w => ⟨[], rw, w, none⟩
  | rw, Nat.succ k, w =>
    match rw.call w with
    | Except.error (e, w1) => ⟨[], rw, w1, some e⟩
    | Except.ok (xy, rw1, w1) =>
      let w2 := tqdmUpdate w1 (total - k) total
      let rest := produceFrom total rw1 k w2
      ⟨Result.mk xy.1 xy.2 :: rest.walks, rest.gen, rest.world, rest.err⟩

/-- `use_randomwalk(total_walks, walk_step, size)`: construct one `RandomWalk`
and yield one `Result` per iteration over `range(total_walks)` (empty when
`total_walks ≤ 0`). -/
def use_randomwalk (total_walks walk_step size : Int) (w : World) : ProduceOut :=
  produceFrom total_walks.toNat (RandomWalk.init walk_step size) total_walks.toNat w

/-- A concrete random source for witnesses: every raw draw is `0`. -/
def w0 : World :=
  ⟨fun _ => 0, 0, []⟩

/-! ### Helper lemmas -/

theorem mem_arange {v a b : Int} : v ∈ arange a b ↔ a ≤ v ∧ v < b := by
  simp only [arange, List.mem_map, List.mem_range]
  constructor
  · rintro ⟨i, hi, rfl⟩
    omega
  · rintro ⟨h1, h2⟩
    exact ⟨(v - a).toNat, by omega, by omega⟩

theorem mem_stepValues {v m : Int} :
    v ∈ stepValues m ↔ ((-m ≤ v ∧ v ≤ -1) ∨ (1 ≤ v ∧ v ≤ m)) := by
  simp only [stepValues, List.mem_append, mem_arange]
  omega

theorem arange_length (a b : Int) : (arange a b).length = (b - a).toNat := by
  simp [arange]

theorem stepValues_length (m : Int) : (stepValues m).length = m.toNat + m.toNat := by
  simp only [stepValues, List.length_append, arange_length]
  omega

theorem listGetD_mem : ∀ (l : List Int) (i : Nat), i < l.length → l.getD i 0 ∈ l
  | [], i, h => absurd h (by simp)
  | a :: l, 0, _ => List.mem_cons_self a l
  | a :: l, i + 1, h => List.mem_cons_of_mem a (listGetD_mem l i (by simpa using h))

theorem choiceDraws_length (a : List Int) (w : World) (n : Nat) :
    (choiceDraws a w n).length = n := by
  simp [choiceDraws]

theorem choiceDraws_mem {a : List Int} (ha : a.length ≠ 0) (w : World) (n : Nat) :
    ∀ v ∈ choiceDraws a w n, v ∈ a := by
  intro v hv
  simp only [choiceDraws, List.mem_map, List.mem_range] at hv
  obtain ⟨i, _, rfl⟩ := hv
  exact listGetD_mem a _ (Nat.mod_lt _ (Nat.pos_of_ne_zero ha))

theorem cumsumFrom_length (l : List Int) : ∀ z : Int, (cumsumFrom z l).length = l.length := by
  induction l with
  | nil => intro z; simp [cumsumFrom]
  | cons v rest ih => intro z; simp [cumsumFrom, ih]

theorem cumsum_length (l : List Int) : (cumsum l).length = l.length :=
  cumsumFrom_length l 0

theorem cumsumFrom_delta :
    ∀ (l : List Int) (z : Int) (i : Nat), i < l.length →
      (z :: cumsumFrom z l).getD (i + 1) 0 - (z :: cumsumFrom z l).getD i 0 = l.getD i 0 := by
  intro l
  induction l with
  | nil => intro z i h; simp at h
  | cons v rest ih =>
    intro z i h
    cases i with
    | zero => simp [cumsumFrom]
    | succ j =>
      have hj : j < rest.length := by simpa using h
      simpa [cumsumFrom] using ih (z + v) j hj

theorem npWhere0_length : ∀ d st : List Int, (npWhere0 d st).length = min d.length st.length
  | [], st => by simp [npWhere0]
  | d :: ds, [] => by simp [npWhere0]
  | d :: ds, v :: vs => by
    simp [npWhere0, npWhere0_length ds vs]
    omega

theorem npWhere1_length : ∀ d st : List Int, (npWhere1 d st).length = min d.length st.length
  | [], st => by simp [npWhere1]
  | d :: ds, [] => by simp [npWhere1]
  | d :: ds, v :: vs => by
    simp [npWhere1, npWhere1_length ds vs]
    omega

theorem npWhere0_getD :
    ∀ (d st : List Int) (i : Nat), i < d.length → i < st.length →
      (npWhere0 d st).getD i 0 = if d.getD i 0 = 0 then st.getD i 0 else 0
  | [], _, i, h1, _ => absurd h1 (by simp)
  | _ :: _, [], i, _, h2 => absurd h2 (by simp)
  | d :: ds, v :: vs, 0, _, _ => by simp [npWhere0]
  | d :: ds, v :: vs, i + 1, h1, h2 => by
    simpa [npWhere0] using npWhere0_getD ds vs i (by simpa using h1) (by simpa using h2)

theorem npWhere1_getD :
    ∀ (d st : List Int) (i : Nat), i < d.length → i < st.length →
      (npWhere1 d st).getD i 0 = if d.getD i 0 = 1 then st.getD i 0 else 0
  | [], _, i, h1, _ => absurd h1 (by simp)
  | _ :: _, [], i, _, h2 => absurd h2 (by simp)
  | d :: ds, v :: vs, 0, _, _ => by simp [npWhere1]
  | d :: ds, v :: vs, i + 1, h1, h2 => by
    simpa [npWhere1] using npWhere1_getD ds vs i (by simpa using h1) (by simpa using h2)

theorem npChoice_ok {a : List Int} (ha : a.length ≠ 0) {n : Int} (hn : 0 ≤ n) (w : World) :
    npChoice a n w = Except.ok (choiceDraws a w n.toNat, advance w n.toNat) := by
  simp [npChoice, ha, not_lt.mpr hn]

theorem call_eq (rw : RandomWalk) (w : World) (ha : rw.step_values.length ≠ 0)
    (hn : 0 ≤ rw.steps) :
    rw.call w = Except.ok
      ((npInsert0 (cumsum (npWhere0 (choiceDraws [0, 1] w rw.steps.toNat)
            (choiceDraws rw.step_values (advance w rw.steps.toNat) rw.steps.toNat))),
        npInsert0 (cumsum (npWhere1 (choiceDraws [0, 1] w rw.steps.toNat)
            (choiceDraws rw.step_values (advance w rw.steps.toNat) rw.steps.toNat)))),
       rw, advance (advance w rw.steps.toNat) rw.steps.toNat) := by
  have h2 : (([0, 1] : List Int)).length ≠ 0 := by decide
  simp only [RandomWalk.call, npChoice_ok h2 hn, npChoice_ok ha hn]

theorem call_gen {rw : RandomWalk} {w : World} {r : List Int × List Int}
    {rw' : RandomWalk} {w' : World}
    (h : rw.call w = Except.ok (r, rw', w')) : rw' = rw := by
  unfold RandomWalk.call at h
  split at h
  · exact absurd h (by simp)
  · split at h
    · exact absurd h (by simp)
    · simp only [Except.ok.injEq, Prod.mk.injEq] at h
      exact h.2.1.symm

theorem produceFrom_gen (total : Nat) :
    ∀ (rw : RandomWalk) (k : Nat) (w : World), (produceFrom total rw k w).gen = rw := by
  intro rw k
  induction k generalizing rw with
  | zero => intro w; rfl
  | succ k ih =>
    intro w
    unfold produceFrom
    cases h : rw.call w with
    | error e => rfl
    | ok p =>
      obtain ⟨xy, rw1, w1⟩ := p
      have hg : rw1 = rw := call_gen h
      simp only [hg, ih]

theorem call_shape {s m : Int} {w : World} (hs : 0 ≤ s) (hm : 1 ≤ m)
    {r : List Int × List Int} {rw' : RandomWalk} {w' : World}
    (h : (RandomWalk.init s m).call w = Except.ok (r, rw', w')) :
    ∃ d st : List Int, d.length = s.toNat ∧ st.length = s.toNat ∧
      (∀ v ∈ d, v = 0 ∨ v = 1) ∧ (∀ v ∈ st, v ∈ stepValues m) ∧
      r.1 = npInsert0 (cumsum (npWhere0 d st)) ∧ r.2 = npInsert0 (cumsum (npWhere1 d st)) := by
  have ha : (RandomWalk.init s m).step_values.length ≠ 0 := by
    show (stepValues m).length ≠ 0
    rw [stepValues_length]
    omega
  have hn : 0 ≤ (RandomWalk.init s m).steps := hs
  rw [call_eq _ w ha hn] at h
  simp only [Except.ok.injEq, Prod.mk.injEq] at h
  obtain ⟨hr, -, -⟩ := h
  refine ⟨choiceDraws [0, 1] w s.toNat,
          choiceDraws (stepValues m) (advance w s.toNat) s.toNat,
          choiceDraws_length _ _ _, choiceDraws_length _ _ _, ?_, ?_,
          by rw [← hr]; rfl, by rw [← hr]; rfl⟩
  · intro v hv
    have : v ∈ ([0, 1] : List Int) := choiceDraws_mem (by decide) _ _ v hv
    simpa using this
  · intro v hv
    exact choiceDraws_mem ha _ _ v hv

theorem produceFrom_ok {rw : RandomWalk} (ha : rw.step_values.length ≠ 0)
    (hn : 0 ≤ rw.steps) :
    ∀ (k total : Nat) (w : World),
      (produceFrom total rw k w).walks.length = k ∧ (produceFrom total rw k w).err = none := by
  intro k
  induction k with
  | zero => intro total w; exact ⟨rfl, rfl⟩
  | succ k ih =>
    intro total w
    unfold produceFrom
    rw [call_eq rw w ha hn]
    simp only [List.length_cons]
    exact ⟨by rw [(ih total _).1], (ih total _).2⟩

theorem call_fail_negative {rw : RandomWalk} (w : World) (hn : rw.steps < 0) :
    rw.call w = Except.error ("negative dimensions are not allowed", w) := by
  have h2 : (([0, 1] : List Int)).length ≠ 0 := by decide
  simp [RandomWalk.call, npChoice, hn, h2]

theorem call_fail_empty {rw : RandomWalk} (w : World) (ha : rw.step_values.length = 0)
    (hn : 0 ≤ rw.steps) :
    rw.call w = Except.error ("a must be non-empty", advance w rw.steps.toNat) := by
  have h2 : (([0, 1] : List Int)).length ≠ 0 := by decide
  simp only [RandomWalk.call, npChoice_ok h2 hn]
  simp [npChoice, ha]

theorem produce_fail_empty (t s m : Int) (w : World) (ht : 1 ≤ t) (hs : 0 < s) (hm : m < 1) :
    use_randomwalk t s m w =
      ⟨[], RandomWalk.init s m, advance w s.toNat, some "a must be non-empty"⟩ := by
  have ha : (RandomWalk.init s m).step_values.length = 0 := by
    show (stepValues m).length = 0
    rw [stepValues_length]
    omega
  have hcall := call_fail_empty w ha (le_of_lt hs : (0 : Int) ≤ s)
  obtain ⟨k, hk⟩ : ∃ k, t.toNat = k + 1 := ⟨t.toNat - 1, by omega⟩
  unfold use_randomwalk
  rw [hk]
  unfold produceFrom
  rw [hcall]
  rfl

theorem produce_fail_negative (t s m : Int) (w : World) (ht : 1 ≤ t) (hs : s < 0) :
    use_randomwalk t s m w =
      ⟨[], RandomWalk.init s m, w, some "negative dimensions are not allowed"⟩ := by
  have hcall : (RandomWalk.init s m).call w =
      Except.error ("negative dimensions are not allowed", w) :=
    call_fail_negative w hs
  obtain ⟨k, hk⟩ : ∃ k, t.toNat = k + 1 := ⟨t.toNat - 1, by omega⟩
  unfold use_randomwalk
  rw [hk]
  unfold produceFrom
  rw [hcall]

/-! ### Claim theorems -/

/-- Claim C2: for every walk generated with `max_magnitude ≥ 1` and every step
index `i` in `[1, step_count]`, exactly one of the per-step deltas
`x[i] - x[i-1]` and `y[i] - y[i-1]` is non-zero while the other is exactly
zero. -/
theorem C2_single_axis_per_step (s m : Int) (w : World) (hs : 0 ≤ s) (hm : 1 ≤ m)
    (i : Nat) (h1 : 1 ≤ i) (h2 : i ≤ s.toNat) :
    ∀ (r : List Int × List Int) (rw' : RandomWalk) (w' : World),
      (RandomWalk.init s m).call w = Except.ok (r, rw', w') →
      (r.1.getD i 0 - r.1.getD (i - 1) 0 ≠ 0 ∧ r.2.getD i 0 - r.2.getD (i - 1) 0 = 0) ∨
      (r.1.getD i 0 - r.1.getD (i - 1) 0 = 0 ∧ r.2.getD i 0 - r.2.getD (i - 1) 0 ≠ 0) := by
  intro r rw' w' hcall
  obtain ⟨d, st, hd, hst, hdmem, hstmem, hx, hy⟩ := call_shape hs hm hcall
  obtain ⟨j, rfl⟩ : ∃ j, i = j + 1 := ⟨i - 1, by omega⟩
  have hjd : j < d.length := by omega
  have hjst : j < st.length := by omega
  have hjx : j < (npWhere0 d st).length := by rw [npWhere0_length]; omega
  have hjy : j < (npWhere1 d st).length := by rw [npWhere1_length]; omega
  have hdx : r.1.getD (j + 1) 0 - r.1.getD j 0 = (npWhere0 d st).getD j 0 := by
    rw [hx]; exact cumsumFrom_delta _ 0 j hjx
  have hdy : r.2.getD (j + 1) 0 - r.2.getD j 0 = (npWhere1 d st).getD j 0 := by
    rw [hy]; exact cumsumFrom_delta _ 0 j hjy
  have hdval : d.getD j 0 = 0 ∨ d.getD j 0 = 1 := hdmem _ (listGetD_mem d j hjd)
  have hstne : st.getD j 0 ≠ 0 := by
    have := mem_stepValues.mp (hstmem _ (listGetD_mem st j hjst))
    omega
  simp only [Nat.add_sub_cancel]
  rw [hdx, hdy, npWhere0_getD d st j hjd hjst, npWhere1_getD d st j hjd hjst]
  rcases hdval with h | h
  · left
    rw [h]
    simpa using hstne
  · right
    rw [h]
    simpa using hstne

/-- Claim C3: the precomputed step-value set is exactly the integers of
`[-max_magnitude, -1] ∪ [1, max_magnitude]` (zero excluded), and every
non-zero per-step coordinate delta of a generated walk has absolute value in
`[1, max_magnitude]`. -/
theorem C3_magnitude_bounds (m : Int) :
    (∀ v : Int, v ∈ stepValues m ↔ ((-m ≤ v ∧ v ≤ -1) ∨ (1 ≤ v ∧ v ≤ m))) ∧
    (1 ≤ m → ∀ (s : Int) (w : World), 0 ≤ s →
      ∀ (r : List Int × List Int) (rw' : RandomWalk) (w' : World),
        (RandomWalk.init s m).call w = Except.ok (r, rw', w') →
        ∀ i : Nat, 1 ≤ i → i ≤ s.toNat →
          (r.1.getD i 0 - r.1.getD (i - 1) 0 ≠ 0 →
            1 ≤ (r.1.getD i 0 - r.1.getD (i - 1) 0).natAbs ∧
            (r.1.getD i 0 - r.1.getD (i - 1) 0).natAbs ≤ m.toNat) ∧
          (r.2.getD i 0 - r.2.getD (i - 1) 0 ≠ 0 →
            1 ≤ (r.2.getD i 0 - r.2.getD (i - 1) 0).natAbs ∧
            (r.2.getD i 0 - r.2.getD (i - 1) 0).natAbs ≤ m.toNat)) := by
  constructor
  · intro v
    exact mem_stepValues
  · intro hm s w hs r rw' w' hcall i h1 h2
    obtain ⟨d, st, hd, hst, hdmem, hstmem, hx, hy⟩ := call_shape hs hm hcall
    obtain ⟨j, rfl⟩ : ∃ j, i = j + 1 := ⟨i - 1, by omega⟩
    have hjd : j < d.length := by omega
    have hjst : j < st.length := by omega
    have hjx : j < (npWhere0 d st).length := by rw [npWhere0_length]; omega
    have hjy : j < (npWhere1 d st).length := by rw [npWhere1_length]; omega
    have hdx : r.1.getD (j + 1) 0 - r.1.getD j 0 = (npWhere0 d st).getD j 0 := by
      rw [hx]; exact cumsumFrom_delta _ 0 j hjx
    have hdy : r.2.getD (j + 1) 0 - r.2.getD j 0 = (npWhere1 d st).getD j 0 := by
      rw [hy]; exact cumsumFrom_delta _ 0 j hjy
    have hstv := mem_stepValues.mp (hstmem _ (listGetD_mem st j hjst))
    simp only [Nat.add_sub_cancel]
    rw [hdx, hdy, npWhere0_getD d st j hjd hjst, npWhere1_getD d st j hjd hjst]
    constructor
    · intro hne
      rcases Decidable.em (d.getD j 0 = 0) with h | h
      · rw [if_pos h] at hne ⊢
        omega
      · rw [if_neg h] at hne
        exact absurd rfl hne
    · intro hne
      rcases Decidable.em (d.getD j 0 = 1) with h | h
      · rw [if_pos h] at hne ⊢
        omega
      · rw [if_neg h] at hne
        exact absurd rfl hne

/-- Claim C4: for every valid configuration, a generated walk has `x` and `y`
sequences of equal length `step_count + 1`, starting at `x[0] = y[0] = 0`, and
each coordinate sequence is the running prefix sum of its per-axis
step-contribution sequence with the origin prepended. -/
theorem C4_walk_shape (s m : Int) (w : World) (hs : 0 ≤ s) (hm : 1 ≤ m) :
    ∀ (r : List Int × List Int) (rw' : RandomWalk) (w' : World),
      (RandomWalk.init s m).call w = Except.ok (r, rw', w') →
      r.1.length = s.toNat + 1 ∧ r.2.length = s.toNat + 1 ∧
      r.1.getD 0 0 = 0 ∧ r.2.getD 0 0 = 0 ∧
      ∃ xsteps ysteps : List Int, xsteps.length = s.toNat ∧ ysteps.length = s.toNat ∧
        r.1 = npInsert0 (cumsum xsteps) ∧ r.2 = npInsert0 (cumsum ysteps) := by
  intro r rw' w' hcall
  obtain ⟨d, st, hd, hst, -, -, hx, hy⟩ := call_shape hs hm hcall
  have hlx : (npWhere0 d st).length = s.toNat := by rw [npWhere0_length]; omega
  have hly : (npWhere1 d st).length = s.toNat := by rw [npWhere1_length]; omega
  refine ⟨?_, ?_, ?_, ?_, npWhere0 d st, npWhere1 d st, hlx, hly, hx, hy⟩
  · rw [hx]
    simp [npInsert0, cumsum_length, hlx]
  · rw [hy]
    simp [npInsert0, cumsum_length, hly]
  · rw [hx]
    rfl
  · rw [hy]
    rfl

/-- Claim C1, counterexample: `produce(total_walks=1, step_count=5,
max_magnitude=0)` does not fail at construction.  Construction succeeds, the
run consumes five raw random draws (the axis choices) and only then fails,
inside the first generation call, with the NumPy `ValueError` message — there
is no construction-time validation and no `InvalidConfiguration` error in the
code. -/
theorem C1_counterexample :
    (use_randomwalk 1 5 0 w0).walks = [] ∧
    (use_randomwalk 1 5 0 w0).err = some "a must be non-empty" ∧
    w0.pos = 0 ∧
    (use_randomwalk 1 5 0 w0).world.pos = 5 :=
  ⟨rfl, rfl, rfl, rfl⟩

/-- Claim C1, amended: `RandomWalk.__init__` performs no validation and never
raises.  With `max_magnitude < 1` the precomputed step-value set is empty and
`produce(total_walks=1, step_count, max_magnitude)` (for `step_count > 0`)
yields no walks and fails with a `ValueError` raised by the first generation
call — deferred to first use, after `step_count` raw draws of axis entropy,
not surfaced at construction. -/
theorem C1_amended_deferred_failure (s m : Int) (w : World) (hs : 0 < s) (hm : m < 1) :
    (use_randomwalk 1 s m w).walks = [] ∧
    (use_randomwalk 1 s m w).err = some "a must be non-empty" ∧
    (use_randomwalk 1 s m w).world.pos = w.pos + s.toNat := by
  rw [produce_fail_empty 1 s m w (by omega) hs hm]
  exact ⟨rfl, rfl, rfl⟩

theorem C1_amended_witness :
    (use_randomwalk 1 5 0 w0).walks = [] ∧
    (use_randomwalk 1 5 0 w0).err = some "a must be non-empty" ∧
    (use_randomwalk 1 5 0 w0).world.pos = w0.pos + 5 :=
  C1_amended_deferred_failure 5 0 w0 (by decide) (by decide)

theorem C2_witness :
    (([0, -1, -2] : List Int).getD 1 0 - ([0, -1, -2] : List Int).getD 0 0 ≠ 0 ∧
     ([0, 0, 0] : List Int).getD 1 0 - ([0, 0, 0] : List Int).getD 0 0 = 0) ∨
    (([0, -1, -2] : List Int).getD 1 0 - ([0, -1, -2] : List Int).getD 0 0 = 0 ∧
     ([0, 0, 0] : List Int).getD 1 0 - ([0, 0, 0] : List Int).getD 0 0 ≠ 0) :=
  C2_single_axis_per_step 2 1 w0 (by decide) (by decide) 1 (by decide) (by decide)
    ⟨[0, -1, -2], [0, 0, 0]⟩ (RandomWalk.init 2 1) (advance (advance w0 2) 2) rfl

theorem C3_witness :
    ((-2 : Int) ∈ stepValues 3 ↔
      ((-3 ≤ (-2 : Int) ∧ (-2 : Int) ≤ -1) ∨ (1 ≤ (-2 : Int) ∧ (-2 : Int) ≤ 3))) ∧
    (1 ≤ (([0, -3, -6] : List Int).getD 1 0 - ([0, -3, -6] : List Int).getD 0 0).natAbs ∧
     (([0, -3, -6] : List Int).getD 1 0 - ([0, -3, -6] : List Int).getD 0 0).natAbs ≤ 3) :=
  ⟨(C3_magnitude_bounds 3).1 (-2),
   ((C3_magnitude_bounds 3).2 (by decide) 2 w0 (by decide)
      ⟨[0, -3, -6], [0, 0, 0]⟩ (RandomWalk.init 2 3) (advance (advance w0 2) 2) (by rfl)
      1 (by decide) (by decide)).1 (by decide)⟩

theorem C4_witness :
    ([0, -1] : List Int).length = 2 ∧ ([0, 0] : List Int).length = 2 ∧
    ([0, -1] : List Int).getD 0 0 = 0 ∧ ([0, 0] : List Int).getD 0 0 = 0 ∧
    (∃ xsteps ysteps : List Int, xsteps.length = 1 ∧ ysteps.length = 1 ∧
      ([0, -1] : List Int) = npInsert0 (cumsum xsteps) ∧
      ([0, 0] : List Int) = npInsert0 (cumsum ysteps)) :=
  C4_walk_shape 1 1 w0 (by decide) (by decide)
    ⟨[0, -1], [0, 0]⟩ (RandomWalk.init 1 1) (advance (advance w0 1) 1) rfl

/-- Claim C5: for every non-negative `total_walks` and valid configuration,
`use_randomwalk` yields exactly `total_walks` walks, in generation order, and
completes without error; in particular `total_walks = 0` yields nothing. -/
theorem C5_batch_count (t s m : Int) (w : World) (_ht : 0 ≤ t) (hs : 0 ≤ s) (hm : 1 ≤ m) :
    (use_randomwalk t s m w).walks.length = t.toNat ∧
    (use_randomwalk t s m w).err = none := by
  have ha : (RandomWalk.init s m).step_values.length ≠ 0 := by
    show (stepValues m).length ≠ 0
    rw [stepValues_length]
    omega
  exact produceFrom_ok ha hs t.toNat t.toNat w

theorem C5_witness :
    ((use_randomwalk 5 10 3 w0).walks.length = 5 ∧ (use_randomwalk 5 10 3 w0).err = none) ∧
    ((use_randomwalk 0 10 3 w0).walks.length = 0 ∧ (use_randomwalk 0 10 3 w0).err = none) :=
  ⟨C5_batch_count 5 10 3 w0 (by decide) (by decide) (by decide),
   C5_batch_count 0 10 3 w0 (by decide) (by decide) (by decide)⟩

/-- Claim C6: zero `step_count` is valid: `produce(total_walks=1, step_count=0,
max_magnitude=3)` yields exactly one walk equal to `x=[0], y=[0]`, whatever the
state of the random source. -/
theorem C6_degenerate_walk :
    ∀ w : World, (use_randomwalk 1 0 3 w).walks = [Result.mk [0] [0]] ∧
      (use_randomwalk 1 0 3 w).err = none := by
  intro w
  exact ⟨rfl, rfl⟩

/-- Claim C7, counterexample: with the invalid configuration `step_count=5,
max_magnitude=0`, the failure is not reached before entropy is consumed: the
run starts at cursor `0` and fails only after five raw random draws (the axis
choices for the first walk) have been consumed.  (No per-walk progress event
precedes the failure, but the entropy part of the claim is false.) -/
theorem C7_counterexample :
    (use_randomwalk 1 5 0 w0).err.isSome = true ∧
    (use_randomwalk 1 5 0 w0).world.progressEvents = [] ∧
    w0.pos = 0 ∧
    (use_randomwalk 1 5 0 w0).world.pos = 5 :=
  ⟨rfl, rfl, rfl, rfl⟩

/-- Claim C7, amended: with an invalid configuration, `produce` fails during
the first generation attempt, before any per-walk progress event is emitted
and with no walk yielded; when `step_count < 0` no entropy is consumed before
the failure, but when `max_magnitude < 1` with `step_count > 0` the
`step_count` axis draws of the first walk are consumed before the failure. -/
theorem C7_amended_failure_timing :
    (∀ (t s m : Int) (w : World), 1 ≤ t → 0 < s → m < 1 →
      (use_randomwalk t s m w).walks = [] ∧
      (use_randomwalk t s m w).err = some "a must be non-empty" ∧
      (use_randomwalk t s m w).world.progressEvents = w.progressEvents ∧
      (use_randomwalk t s m w).world.pos = w.pos + s.toNat) ∧
    (∀ (t s m : Int) (w : World), 1 ≤ t → s < 0 →
      (use_randomwalk t s m w).walks = [] ∧
      (use_randomwalk t s m w).err = some "negative dimensions are not allowed" ∧
      (use_randomwalk t s m w).world.progressEvents = w.progressEvents ∧
      (use_randomwalk t s m w).world.pos = w.pos) := by
  constructor
  · intro t s m w ht hs hm
    rw [produce_fail_empty t s m w ht hs hm]
    exact ⟨rfl, rfl, rfl, rfl⟩
  · intro t s m w ht hs
    rw [produce_fail_negative t s m w ht hs]
    exact ⟨rfl, rfl, rfl, rfl⟩

theorem C7_amended_witness :
    ((use_randomwalk 1 5 0 w0).walks = [] ∧
     (use_randomwalk 1 5 0 w0).err = some "a must be non-empty" ∧
     (use_randomwalk 1 5 0 w0).world.progressEvents = w0.progressEvents ∧
     (use_randomwalk 1 5 0 w0).world.pos = w0.pos + 5) ∧
    ((use_randomwalk 1 (-3) 2 w0).walks = [] ∧
     (use_randomwalk 1 (-3) 2 w0).err = some "negative dimensions are not allowed" ∧
     (use_randomwalk 1 (-3) 2 w0).world.progressEvents = w0.progressEvents ∧
     (use_randomwalk 1 (-3) 2 w0).world.pos = w0.pos) :=
  ⟨C7_amended_failure_timing.1 1 5 0 w0 (by decide) (by decide) (by decide),
   C7_amended_failure_timing.2 1 (-3) 2 w0 (by decide) (by decide)⟩

/-- Claim C8: after construction with a non-degenerate configuration
(`step_count ≥ 0`, `max_magnitude ≥ 1`), generation always succeeds: the
generate operation takes no error path. -/
theorem C8_generation_total (s m : Int) (w : World) (hs : 0 ≤ s) (hm : 1 ≤ m) :
    ∃ (r : List Int × List Int) (w' : World),
      (RandomWalk.init s m).call w = Except.ok (r, RandomWalk.init s m, w') := by
  have ha : (RandomWalk.init s m).step_values.length ≠ 0 := by
    show (stepValues m).length ≠ 0
    rw [stepValues_length]
    omega
  exact ⟨_, _, call_eq _ w ha hs⟩

theorem C8_witness :
    ∃ (r : List Int × List Int) (w' : World),
      (RandomWalk.init 1 1).call w0 = Except.ok (r, RandomWalk.init 1 1, w') :=
  C8_generation_total 1 1 w0 (by decide) (by decide)

/-- Claim C9: the stored configuration is immutable: every generate call
returns the generator with `steps` and `step_values` unchanged, and the batch
producer's single generator is, throughout and after the whole batch, exactly
the one constructed from the given configuration. -/
theorem C9_config_immutable :
    (∀ (rw : RandomWalk) (w : World) (r : List Int × List Int)
       (rw' : RandomWalk) (w' : World),
       rw.call w = Except.ok (r, rw', w') →
       rw'.steps = rw.steps ∧ rw'.step_values = rw.step_values) ∧
    (∀ (t s m : Int) (w : World), (use_randomwalk t s m w).gen = RandomWalk.init s m) := by
  constructor
  · intro rw w r rw' w' h
    rw [call_gen h]
    exact ⟨rfl, rfl⟩
  · intro t s m w
    exact produceFrom_gen _ _ _ w

theorem C9_witness :
    ((RandomWalk.init 1 1).steps = (RandomWalk.init 1 1).steps ∧
     (RandomWalk.init 1 1).step_values = (RandomWalk.init 1 1).step_values) ∧
    (use_randomwalk 2 1 1 w0).gen = RandomWalk.init 1 1 :=
  ⟨C9_config_immutable.1 (RandomWalk.init 1 1) w0 ⟨[0, -1], [0, 0]⟩
     (RandomWalk.init 1 1) (advance (advance w0 1) 1) (by rfl),
   C9_config_immutable.2 2 1 1 w0⟩

/-- Claim C10: for every `total_walks ≤ 0` (negative values included) and any
configuration, `use_randomwalk` yields no walk and completes without error —
the iteration range is empty, so the random source and progress state are left
untouched. -/
theorem C10_nonpositive_total (t s m : Int) (w : World) (ht : t ≤ 0) :
    (use_randomwalk t s m w).walks = [] ∧
    (use_randomwalk t s m w).err = none ∧
    (use_randomwalk t s m w).world = w := by
  have h : t.toNat = 0 := by omega
  unfold use_randomwalk
  rw [h]
  exact ⟨rfl, rfl, rfl⟩

theorem C10_witness :
    (use_randomwalk (-3) 5 0 w0).walks = [] ∧
    (use_randomwalk (-3) 5 0 w0).err = none ∧
    (use_randomwalk (-3) 5 0 w0).world = w0 :=
  C10_nonpositive_total (-3) 5 0 w0 (by decide)
